import Mathlib

/-!
Shallow embedding of `contents/scripts/shell_runner.py` (Terminal Buddy
shell runner) and proofs about its history store, command classification,
decoding and top-level orchestration.

Modelling conventions:
* Python exceptions are modelled with `Except PyErr`; an `Except.error`
  escaping a function models an uncaught Python exception at that point.
* Filesystem and subprocess effects are modelled by an explicit
  environment (`Env`): the state of the history file at load time, the
  shell-resolution environment, the outcome of `subprocess.run`, and
  whether `mkdir` / the file write raise `OSError`.
* Python `str` values decoded from JSON are modelled by the inductive
  `Json`; JSON floats are not modelled (no verified property involves
  them), numbers are integers.
-/

/-- The Python exception classes that can escape the modelled functions.
`unicodeDecodeError` models `UnicodeDecodeError` (a `ValueError` that is
neither a `json.JSONDecodeError` nor an `OSError`). -/
inductive PyErr where
  | osError
  | unicodeDecodeError
deriving Repr, DecidableEq

/-- The in-memory history record, Python dict
`{"last_command": str, "history": [str, ...]}` after normalisation. -/
structure HistoryRecord where
  last_command : String
  history : List String
deriving Repr, DecidableEq

/-- Source constant `DEFAULT_HISTORY = {"last_command": "", "history": []}`. -/
def DEFAULT_HISTORY : HistoryRecord := { last_command := "", history := [] }

/-- Source constant `MAX_HISTORY_DEFAULT = 100`. -/
def MAX_HISTORY_DEFAULT : Int := 100

/-- JSON values as produced by Python `json.load`. Numbers are modelled as
integers (floats are irrelevant to every verified property). -/
inductive Json where
  | null
  | bool (b : Bool)
  | int (n : Int)
  | str (s : String)
  | arr (xs : List Json)
  | obj (kvs : List (String × Json))

/-- Python `dict.get(key, default)` on a JSON object, modelled over an
association list (for duplicate keys `json.load` keeps the last one). -/
def jsonGet (kvs : List (String × Json)) (key : String) : Option Json :=
  ((kvs.filter (fun kv => kv.fst == key)).getLast?).map (fun kv => kv.snd)

/-- Python truthiness of a JSON-decoded value. -/
def pyTruthy : Json → Bool
  | .null => false
  | .bool b => b
  | .int n => n != 0
  | .str s => s != ""
  | .arr xs => !xs.isEmpty
  | .obj kvs => !kvs.isEmpty

/-- Python `repr` of a string (the default single-quote form; `\xNN`
escapes of other control characters are not modelled — no verified
property depends on them). -/
def pyStrRepr (s : String) : String :=
  let q : Char := if s.contains '\'' && !(s.contains '"') then '"' else '\''
  let esc : Char → String := fun c =>
    if c = '\\' then "\\\\"
    else if c = q then "\\" ++ String.mk [q]
    else if c = '\n' then "\\n"
    else if c = '\r' then "\\r"
    else if c = '\t' then "\\t"
    else String.mk [c]
  String.mk [q] ++ String.join (s.toList.map esc) ++ String.mk [q]

mutual

/-- Python `repr` of a JSON-decoded value. -/
def pyRepr : Json → String
  | .null => "None"
  | .bool true => "True"
  | .bool false => "False"
  | .int n => toString n
  | .str s => pyStrRepr s
  | .arr xs => "[" ++ String.intercalate ", " (pyReprList xs) ++ "]"
  | .obj kvs => "\x7b" ++ String.intercalate ", " (pyReprObj kvs) ++ "\x7d"

/-- Helper for `pyRepr` on array elements. -/
def pyReprList : List Json → List String
  | [] => []
  | j :: rest => pyRepr j :: pyReprList rest

/-- Helper for `pyRepr` on object entries. -/
def pyReprObj : List (String × Json) → List String
  | [] => []
  | (k, v) :: rest => (pyStrRepr k ++ ": " ++ pyRepr v) :: pyReprObj rest

end

/-- Python `str` of a JSON-decoded value (`str(entry)` in `load_history`). -/
def pyStr : Json → String
  | .str s => s
  | j => pyRepr j

/-- The observable state of the history file when `load_history` runs.
`badUtf8` is a file whose bytes are not valid UTF-8: reading it raises
`UnicodeDecodeError`. `parseError` is valid text that is not valid JSON
(`json.JSONDecodeError`). `openError` is an `OSError` on open/read. -/
inductive FileState where
  | absent
  | openError
  | badUtf8
  | parseError
  | parsed (j : Json)

/-- Embedding of `load_history` (lines 25-51). The `except` clause catches
`json.JSONDecodeError` and `OSError` only, so the `UnicodeDecodeError`
raised by reading non-UTF-8 bytes escapes. -/
def load_history : FileState → Except PyErr HistoryRecord
  | .absent => .ok DEFAULT_HISTORY
  | .openError => .ok DEFAULT_HISTORY
  | .badUtf8 => .error .unicodeDecodeError
  | .parseError => .ok DEFAULT_HISTORY
  | .parsed j =>
    match j with
    | .obj kvs =>
      let history := (jsonGet kvs "history").getD (.arr [])
      let last_command := (jsonGet kvs "last_command").getD (.str "")
      let historyList : List Json :=
        match history with
        | .arr xs => xs
        | _ => []
      .ok { last_command := if pyTruthy last_command then pyStr last_command else "",
            history := historyList.map pyStr }
    | _ => .ok DEFAULT_HISTORY

/-- Whether `HISTORY_DIR.mkdir` and the file write raise `OSError`. -/
structure SaveEnv where
  mkdirFails : Bool
  writeFails : Bool
deriving Repr, DecidableEq

/-- Embedding of `save_history` (lines 54-64). Returns the file content
written, if any. In the source the `mkdir` call sits outside the
`try`, so an `OSError` raised there escapes; only an `OSError` from
opening/writing the file is swallowed. -/
def save_history (history : HistoryRecord) (env : SaveEnv) :
    Except PyErr (Option HistoryRecord) :=
  if env.mkdirFails then .error .osError
  else if env.writeFails then .ok none
  else .ok (some history)

/-- Characters removed by Python `str.strip()` with no argument
(ASCII whitespace; exotic Unicode spaces are not modelled). -/
def isPySpace (c : Char) : Bool :=
  c = ' ' || c = '\t' || c = '\n' || c = '\r' || c.toNat = 11 || c.toNat = 12

/-- Python `str.strip()`. -/
def pyStrip (s : String) : String :=
  String.mk (((s.toList.dropWhile isPySpace).reverse.dropWhile isPySpace).reverse)

/-- Python `str.lower()` (ASCII case folding; the full Unicode folding
differs only on inputs irrelevant to the classification sets used here). -/
def pyLower (s : String) : String :=
  String.mk (s.toList.map Char.toLower)

/-- Python `a or b` on optional strings: the first operand when truthy
(present and non-empty), otherwise the second. -/
def pyOr (a b : Option String) : Option String :=
  match a with
  | some s => if s = "" then b else some s
  | none => b

/-- Environment consulted by `detect_shell`: the two environment
variables and the filesystem existence predicate. -/
structure ShellEnv where
  terminal_buddy_shell : Option String
  shell_var : Option String
  pathExists : String → Bool

/-- Source constant: the ordered probe list in `detect_shell`. -/
def SHELL_CANDIDATES : List String :=
  ["/usr/bin/zsh", "/usr/bin/fish", "/usr/bin/bash",
   "/bin/bash", "/bin/zsh", "/bin/fish", "/bin/sh"]

/-- Embedding of `detect_shell` (lines 67-89). -/
def detect_shell (env : ShellEnv) : String :=
  let env_shell := pyOr env.terminal_buddy_shell env.shell_var
  match env_shell with
  | some s =>
    if s ≠ "" ∧ env.pathExists s then s
    else ((SHELL_CANDIDATES.find? env.pathExists).getD "/bin/sh")
  | none => ((SHELL_CANDIDATES.find? env.pathExists).getD "/bin/sh")

/-- Python list slicing `xs[:limit]` for an arbitrary (possibly negative)
integer bound. -/
def pySliceTo (limit : Int) (xs : List String) : List String :=
  if 0 ≤ limit then xs.take limit.toNat
  else xs.take (xs.length - (-limit).toNat)

/-- Embedding of `update_history` (lines 105-112); the in-place dict
mutation becomes returning the updated record. -/
def update_history (history : HistoryRecord) (command : String) (limit : Int) :
    HistoryRecord :=
  let commands := history.history.filter (fun entry => entry != command)
  let commands := command :: commands
  { last_command := command, history := pySliceTo limit commands }

/-- Value of a base64-alphabet character. -/
def b64val (c : Char) : Option Nat :=
  if 'A' ≤ c ∧ c ≤ 'Z' then some (c.toNat - 65)
  else if 'a' ≤ c ∧ c ≤ 'z' then some (c.toNat - 97 + 26)
  else if '0' ≤ c ∧ c ≤ '9' then some (c.toNat - 48 + 52)
  else if c = '+' then some 62
  else if c = '/' then some 63
  else none

/-- Decode a run of 6-bit values into bytes (4 values per 3 bytes, with
the standard truncated-tail cases). -/
def b64decodeBytes : List Nat → List Nat
  | a :: b :: c :: d :: rest =>
    (a * 4 + b / 16) :: ((b % 16) * 16 + c / 4) :: ((c % 4) * 64 + d) ::
      b64decodeBytes rest
  | [a, b] => [a * 4 + b / 16]
  | [a, b, c] => [a * 4 + b / 16, (b % 16) * 16 + c / 4]
  | _ => []

/-- Model of Python `base64.b64decode` on a `str` argument in its default
non-strict mode: non-ASCII input raises `ValueError`; characters outside
the alphabet are discarded; characters after the first padding `=` are
ignored; incorrect padding raises `binascii.Error` (a `ValueError`).
`none` models the raised `ValueError`. -/
def b64decode (s : String) : Option (List Nat) :=
  let cs := s.toList
  if cs.any (fun c => 128 ≤ c.toNat) then none
  else
    let kept := cs.filter (fun c => (b64val c).isSome || c == '=')
    let data := kept.takeWhile (fun c => c ≠ '=')
    let pads := ((kept.drop data.length).takeWhile (fun c => c == '=')).length
    let vals := data.filterMap b64val
    if vals.length % 4 == 1 then none
    else if (vals.length + pads) % 4 != 0 then none
    else some (b64decodeBytes vals)

/-- Whether a byte is a UTF-8 continuation byte. -/
def isCont (b : Nat) : Bool := 128 ≤ b && b < 192

/-- Parse one UTF-8 scalar value at the head of a byte stream: the first
byte plus the following bytes. Returns the code point and the number of
continuation bytes consumed, or `none` when the head starts no valid
sequence. -/
def utf8Parse1 (b : Nat) (rest : List Nat) : Option (Nat × Nat) :=
  if b < 128 then some (b, 0)
  else if 194 ≤ b && b ≤ 223 then
    match rest with
    | b2 :: _ => if isCont b2 then some ((b - 192) * 64 + (b2 - 128), 1) else none
    | [] => none
  else if 224 ≤ b && b ≤ 239 then
    match rest with
    | b2 :: b3 :: _ =>
      if isCont b2 && isCont b3 &&
          (b != 224 || 160 ≤ b2) && (b != 237 || b2 < 160) then
        some ((b - 224) * 4096 + (b2 - 128) * 64 + (b3 - 128), 2)
      else none
    | _ => none
  else if 240 ≤ b && b ≤ 244 then
    match rest with
    | b2 :: b3 :: b4 :: _ =>
      if isCont b2 && isCont b3 && isCont b4 &&
          (b != 240 || 144 ≤ b2) && (b != 244 || b2 < 144) then
        some ((b - 240) * 262144 + (b2 - 128) * 4096 + (b3 - 128) * 64 + (b4 - 128), 3)
      else none
    | _ => none
  else none

/-- Fuelled decoding loop for `bytes.decode("utf-8", errors="ignore")`:
emit each valid scalar, silently skip bytes of ill-formed sequences.
Each step consumes at least one byte, so fuel equal to the length of the
input suffices. -/
def utf8Go : Nat → List Nat → List Char
  | 0, _ => []
  | _ + 1, [] => []
  | fuel + 1, b :: rest =>
    match utf8Parse1 b rest with
    | some (cp, extra) => Char.ofNat cp :: utf8Go fuel (rest.drop extra)
    | none => utf8Go fuel rest

/-- Model of Python `bytes.decode("utf-8", errors="ignore")`. -/
def utf8DecodeIgnore (bytes : List Nat) : String :=
  String.mk (utf8Go bytes.length bytes)

/-- Embedding of `decode_command` (lines 92-102). `if encoded:` is Python
truthiness (present and non-empty); the `except` clause turns any
`ValueError` from `b64decode` into the empty string; `command or ""`
maps an absent raw string to the empty string. -/
def decode_command (encoded : Option String) (command : Option String) : String :=
  match encoded with
  | some e =>
    if e ≠ "" then
      match b64decode e with
      | some bs => utf8DecodeIgnore bs
      | none => ""
    else command.getD ""
  | none => command.getD ""

/-- Outcome of a completed `subprocess.run` call (`text=True`). -/
structure LaunchOut where
  stdout : String
  stderr : String
  returncode : Int
deriving Repr, DecidableEq

/-- The full effect environment of one invocation: history file state,
shell resolution inputs, the subprocess outcome (`Except.error msg`
models `subprocess.run` raising, with `msg` the exception text), and the
persistence failure flags. -/
structure Env where
  fileState : FileState
  shellEnv : ShellEnv
  launch : Except String LaunchOut
  saveEnv : SaveEnv

/-- The response dict built by `run_command`; the optional `action` field
models the key being present or absent. -/
structure Response where
  type : String
  command : String
  stdout : String
  stderr : String
  exit_code : Int
  shell : String
  history : List String
  last_command : String
  action : Option String
deriving Repr, DecidableEq

/-- Observable outcome of `run_command`: the response payload, the
in-memory record after the call, whether a shell process was launched
and with which text, and the file content written (if any). -/
structure RunResult where
  response : Response
  history : HistoryRecord
  launched : Bool
  executed : Option String
  written : Option HistoryRecord
deriving Repr, DecidableEq

/-- Embedding of `run_command` (lines 115-161). The `try` around
`subprocess.run` catches every exception, but the `save_history` call is
not guarded, so an `OSError` escaping `save_history` (its `mkdir`)
escapes `run_command` too. -/
def run_command (command : String) (history : HistoryRecord) (max_history : Int)
    (env : Env) : Except PyErr RunResult :=
  let shell_path := detect_shell env.shellEnv
  let response : Response :=
    { type := "run"
      command := command
      stdout := ""
      stderr := ""
      exit_code := 0
      shell := shell_path
      history := history.history
      last_command := history.last_command
      action := none }
  let lowered := pyLower (pyStrip command)
  if lowered = "" ∨ lowered = "clear" ∨ lowered = "cls" then
    .ok { response := if lowered ≠ "" then { response with action := some "clear" }
                      else response
          history := history
          launched := false
          executed := none
          written := none }
  else if lowered = "exit" ∨ lowered = "quit" then
    .ok { response := { response with action := some "exit" }
          history := history
          launched := false
          executed := none
          written := none }
  else
    let response1 :=
      match env.launch with
      | .ok completed =>
        { response with stdout := completed.stdout
                        stderr := completed.stderr
                        exit_code := completed.returncode }
      | .error msg =>
        { response with stderr := "Execution error: " ++ msg, exit_code := -1 }
    let history1 := update_history history command max_history
    match save_history history1 env.saveEnv with
    | .error e => .error e
    | .ok written =>
      .ok { response := { response1 with history := history1.history
                                         last_command := history1.last_command }
            history := history1
            launched := true
            executed := some command
            written := written }

/-- The parsed CLI arguments used by `main` (argument parsing itself is an
external collaborator; `max_history` carries the `--max-history` value,
default 100). -/
structure Args where
  run : Bool
  encoded : Option String
  command : Option String
  history : Bool
  max_history : Int
deriving Repr

/-- The JSON payload emitted on stdout, one constructor per `type`. -/
inductive Payload where
  | run (response : Response)
  | history (history : List String) (last_command : String) (shell : String)
  | error (stderr : String) (exit_code : Int)
deriving Repr, DecidableEq

/-- Observable outcome of `main`: the emitted payload, the process return
value, and the execution/persistence effects threaded out of
`run_command`. -/
structure MainResult where
  payload : Payload
  exitCode : Int
  launched : Bool
  executed : Option String
  written : Option HistoryRecord
deriving Repr, DecidableEq

/-- Embedding of `main` (lines 191-218), named `ShellRunner.main` because
a bare `main` is reserved for program entry points. `load_history` runs
before any flag dispatch; an exception escaping it (or `run_command`)
terminates the process with a traceback and a nonzero status, modelled
by `Except.error`. -/
def ShellRunner.main (args : Args) (env : Env) : Except PyErr MainResult :=
  match load_history env.fileState with
  | .error e => .error e
  | .ok history =>
    if args.history then
      .ok { payload := .history history.history history.last_command
                         (detect_shell env.shellEnv)
            exitCode := 0
            launched := false
            executed := none
            written := none }
    else if ¬ args.run then
      .ok { payload := .error "No action supplied. Use --run or --history." 1
            exitCode := 1
            launched := false
            executed := none
            written := none }
    else
      let command := pyStrip (decode_command args.encoded args.command)
      match run_command command history (max 1 args.max_history) env with
      | .error e => .error e
      | .ok result =>
        .ok { payload := .run result.response
              exitCode := 0
              launched := result.launched
              executed := result.executed
              written := result.written }

/-- A shell environment with no override variables and no probed path
present (resolution falls back to "/bin/sh"). -/
def plainShellEnv : ShellEnv :=
  { terminal_buddy_shell := none, shell_var := none, pathExists := fun _ => false }

/-- A benign environment: no history file, a successful launch, and a
healthy filesystem. -/
def envPlain : Env :=
  { fileState := .absent
    shellEnv := plainShellEnv
    launch := .ok { stdout := "hi\n", stderr := "", returncode := 0 }
    saveEnv := { mkdirFails := false, writeFails := false } }

/-- Like `envPlain`, but creating the history directory raises
`OSError` (for example a permission-denied home directory). -/
def envMkdirFails : Env :=
  { envPlain with saveEnv := { mkdirFails := true, writeFails := false } }

/-- Like `envPlain`, but the history file holds bytes that are not valid
UTF-8. -/
def envBadUtf8 : Env :=
  { envPlain with fileState := .badUtf8 }

/-- The union of the two classification sets of `run_command`: trimmed
lowercased commands that short-circuit without launching a process. -/
def isShortCircuit (s : String) : Bool :=
  s == "" || s == "clear" || s == "cls" || s == "exit" || s == "quit"

/-- Whether a JSON value is an object (`isinstance(data, dict)`). -/
def isObjJ : Json → Bool
  | .obj _ => true
  | _ => false

/-- Whether a JSON value is an array (`isinstance(history, list)`). -/
def isArrJ : Json → Bool
  | .arr _ => true
  | _ => false

/-- The concrete outcome of `run_command "echo hi"` on an empty record
under `envPlain`, used to instantiate hypothesis-bearing theorems. -/
def c4SampleResult : RunResult :=
  { response := { type := "run"
                  command := "echo hi"
                  stdout := "hi\n"
                  stderr := ""
                  exit_code := 0
                  shell := "/bin/sh"
                  history := ["echo hi"]
                  last_command := "echo hi"
                  action := none }
    history := { last_command := "echo hi", history := ["echo hi"] }
    launched := true
    executed := some "echo hi"
    written := some { last_command := "echo hi", history := ["echo hi"] } }

/-- C1 (code_bug evidence): the claim says the process exit status is
nonzero exactly when neither flag is supplied. With `--run` supplied but
the history directory uncreatable, `save_history`'s unguarded `mkdir`
raises `OSError`, the process dies with a traceback and a nonzero status
and no JSON payload — so "run flag supplied" does not imply exit code 0.
The second conjunct checks the claimed no-action behaviour itself. -/
theorem main_exit_code_not_confined_to_no_action :
    ShellRunner.main ⟨true, none, some "echo hi", false, 100⟩ envMkdirFails =
      .error .osError ∧
    ShellRunner.main ⟨false, none, none, false, 100⟩ envPlain =
      .ok ⟨.error "No action supplied. Use --run or --history." 1, 1, false,
           none, none⟩ :=
  ⟨rfl, rfl⟩

/-- C2 (code_bug evidence): `save_history` swallows an `OSError` from the
file write, but the `HISTORY_DIR.mkdir` call sits outside the `try`, so a
directory-creation failure escapes instead of being swallowed as the
claim (and the code's own comment) require. -/
theorem save_history_mkdir_error_escapes :
    save_history ⟨"ls", ["ls"]⟩ ⟨true, false⟩ = .error .osError ∧
    save_history ⟨"ls", ["ls"]⟩ ⟨false, true⟩ = .ok none ∧
    save_history ⟨"ls", ["ls"]⟩ ⟨false, false⟩ = .ok (some ⟨"ls", ["ls"]⟩) :=
  ⟨rfl, rfl, rfl⟩

/-- C3 (counterexample): for a well-formed JSON object whose `history`
field is not a list, `load_history` does not return the default empty
record — it still takes `last_command` from the file. -/
theorem load_history_nonlist_history_not_default :
    load_history (.parsed (.obj [("last_command", .str "foo"), ("history", .int 42)])) =
      .ok ⟨"foo", []⟩ ∧ (⟨"foo", []⟩ : HistoryRecord) ≠ DEFAULT_HISTORY :=
  ⟨rfl, by decide⟩

/-- C4 (counterexample): the decoded command is stripped in `main` before
execution, so the untrimmed decoded string `"  echo hi  "` is not what is
passed to the shell — the stripped `"echo hi"` is. -/
theorem main_trims_decoded_command :
    (ShellRunner.main ⟨true, none, some "  echo hi  ", false, 100⟩ envPlain).map
      (fun r => r.executed) = .ok (some "echo hi") ∧
    ("echo hi" : String) ≠ "  echo hi  " :=
  ⟨rfl, by decide⟩

/-- C10 (counterexample): with both flags supplied but a history file of
invalid UTF-8 bytes, `load_history` (which runs before the flag dispatch)
raises an uncaught `UnicodeDecodeError`: no history payload is emitted
and the process status is nonzero, contradicting the claim as stated. -/
theorem main_both_flags_crashes_on_bad_history_bytes :
    ShellRunner.main ⟨true, none, some "echo hi", true, 100⟩ envBadUtf8 =
      .error .unicodeDecodeError :=
  rfl

/-- C5: `update_history` removes every case-sensitive exact occurrence of
the command, prepends it, truncates to the first `limit` entries and sets
`last_command`; applying it to the empty record with "ls", "pwd", "ls"
and limit 3 yields history ["ls", "pwd"] and last_command "ls". -/
theorem update_history_contract :
    (∀ (rec : HistoryRecord) (cmd : String) (limit : Int), 0 ≤ limit →
      (update_history rec cmd limit).last_command = cmd ∧
      (update_history rec cmd limit).history =
        (cmd :: rec.history.filter (fun e => e ≠ cmd)).take limit.toNat) ∧
    update_history (update_history (update_history DEFAULT_HISTORY "ls" 3) "pwd" 3) "ls" 3 =
      ⟨"ls", ["ls", "pwd"]⟩ := by
  constructor
  · intro rec cmd limit hlim
    refine ⟨rfl, ?_⟩
    simp only [update_history, pySliceTo, if_pos hlim]
    congr 2
    apply List.filter_congr
    intro e _
    by_cases h : e = cmd <;> simp [h]
  · rfl

/-- Witness for C5 at a concrete record, command and limit. -/
theorem update_history_contract_witness :
    (update_history ⟨"", []⟩ "x" 2).last_command = "x" ∧
    (update_history ⟨"", []⟩ "x" 2).history = ["x"] := by
  have h := update_history_contract.1 ⟨"", []⟩ "x" 2 (by decide)
  exact ⟨h.1, by rw [h.2]; rfl⟩

/-- C6: starting from any record whose history already satisfies the
invariants, any finite sequence of `update_history` calls with a fixed
limit of at least 1 keeps the history length within the limit and keeps
the history free of duplicates. -/
theorem update_history_preserves_invariants (init : HistoryRecord)
    (cmds : List String) (limit : Int) (hlim : 1 ≤ limit)
    (hlen : init.history.length ≤ limit.toNat) (hnd : init.history.Nodup) :
    ((cmds.foldl (fun r c => update_history r c limit) init).history.length ≤
      limit.toNat) ∧
    (cmds.foldl (fun r c => update_history r c limit) init).history.Nodup := by
  have h0 : (0 : Int) ≤ limit := le_trans (by norm_num) hlim
  induction cmds generalizing init with
  | nil => exact ⟨hlen, hnd⟩
  | cons c cs ih =>
    simp only [List.foldl_cons]
    apply ih
    · simp only [update_history, pySliceTo, if_pos h0]
      rw [List.length_take]
      exact min_le_left _ _
    · simp only [update_history, pySliceTo, if_pos h0]
      apply List.Sublist.nodup (List.take_sublist _ _)
      rw [List.nodup_cons]
      refine ⟨?_, hnd.filter _⟩
      intro hmem
      have := (List.mem_filter.mp hmem).2
      simp at this

/-- Witness for C6 at a concrete record, command sequence and limit. -/
theorem update_history_preserves_invariants_witness :
    ((["ls", "pwd", "ls"].foldl (fun r c => update_history r c 2) ⟨"", []⟩).history.length ≤
      (2 : Int).toNat) ∧
    (["ls", "pwd", "ls"].foldl (fun r c => update_history r c 2) ⟨"", []⟩).history.Nodup :=
  update_history_preserves_invariants ⟨"", []⟩ ["ls", "pwd", "ls"] 2 (by decide)
    (by decide) (by decide)

/-- C7: when the trimmed lowercased command is empty, "clear", "cls",
"exit" or "quit", `run_command` launches no process, reports exit code 0
and leaves both the in-memory record and the persisted file untouched;
conversely, any successful run outside those cases is on the branch that
launched the shell (so history update and persistence happen only
there). -/
theorem short_circuit_skips_launch_and_persist (cmd : String)
    (hist : HistoryRecord) (lim : Int) (env : Env) :
    (isShortCircuit (pyLower (pyStrip cmd)) = true →
      (run_command cmd hist lim env).map
        (fun r => (r.launched, r.response.exit_code, r.history, r.written)) =
        .ok (false, 0, hist, none)) ∧
    (isShortCircuit (pyLower (pyStrip cmd)) = false →
      ∀ r, run_command cmd hist lim env = .ok r → r.launched = true) := by
  constructor
  · intro h
    simp only [isShortCircuit, Bool.or_eq_true, beq_iff_eq] at h
    rcases h with ((((h | h) | h) | h) | h) <;> simp [run_command, h, Except.map]
  · intro h r hok
    simp only [isShortCircuit, Bool.or_eq_false_iff, beq_eq_false_iff_ne, ne_eq] at h
    obtain ⟨⟨⟨⟨h1, h2⟩, h3⟩, h4⟩, h5⟩ := h
    simp only [run_command] at hok
    rw [if_neg (by simp [h1, h2, h3]), if_neg (by simp [h4, h5])] at hok
    cases hsave : save_history (update_history hist cmd lim) env.saveEnv with
    | error e => rw [hsave] at hok; exact Except.noConfusion hok
    | ok w => rw [hsave] at hok; cases hok; rfl

/-- Witness for C7 at the concrete command "exit". -/
theorem short_circuit_skips_launch_and_persist_witness :
    (run_command "exit" ⟨"a", ["a"]⟩ 5 envPlain).map
      (fun r => (r.launched, r.response.exit_code, r.history, r.written)) =
      .ok (false, 0, ⟨"a", ["a"]⟩, none) :=
  (short_circuit_skips_launch_and_persist "exit" ⟨"a", ["a"]⟩ 5 envPlain).1 (by decide)

/-- C8: the response's action tag is "clear" for trimmed lowercased
"clear"/"cls", absent for the empty command, "exit" for "exit"/"quit" —
each with exit code 0 and empty stdout/stderr — and absent for every
other command. -/
theorem action_tagging (cmd : String) (hist : HistoryRecord) (lim : Int)
    (env : Env) :
    ((pyLower (pyStrip cmd) = "clear" ∨ pyLower (pyStrip cmd) = "cls") →
      (run_command cmd hist lim env).map
        (fun r => (r.response.action, r.response.exit_code, r.response.stdout,
                   r.response.stderr)) =
        .ok (some "clear", 0, "", "")) ∧
    (pyLower (pyStrip cmd) = "" →
      (run_command cmd hist lim env).map
        (fun r => (r.response.action, r.response.exit_code, r.response.stdout,
                   r.response.stderr)) =
        .ok (none, 0, "", "")) ∧
    ((pyLower (pyStrip cmd) = "exit" ∨ pyLower (pyStrip cmd) = "quit") →
      (run_command cmd hist lim env).map
        (fun r => (r.response.action, r.response.exit_code, r.response.stdout,
                   r.response.stderr)) =
        .ok (some "exit", 0, "", "")) ∧
    (isShortCircuit (pyLower (pyStrip cmd)) = false →
      ∀ r, run_command cmd hist lim env = .ok r → r.response.action = none) := by
  refine ⟨?_, ?_, ?_, ?_⟩
  · intro h
    rcases h with h | h <;> simp [run_command, h, Except.map]
  · intro h
    simp [run_command, h, Except.map]
  · intro h
    rcases h with h | h <;> simp [run_command, h, Except.map]
  · intro h r hok
    simp only [isShortCircuit, Bool.or_eq_false_iff, beq_eq_false_iff_ne, ne_eq] at h
    obtain ⟨⟨⟨⟨h1, h2⟩, h3⟩, h4⟩, h5⟩ := h
    simp only [run_command] at hok
    rw [if_neg (by simp [h1, h2, h3]), if_neg (by simp [h4, h5])] at hok
    cases hlaunch : env.launch with
    | ok completed =>
      rw [hlaunch] at hok
      cases hsave : save_history (update_history hist cmd lim) env.saveEnv with
      | error e => rw [hsave] at hok; exact Except.noConfusion hok
      | ok w => rw [hsave] at hok; cases hok; rfl
    | error msg =>
      rw [hlaunch] at hok
      cases hsave : save_history (update_history hist cmd lim) env.saveEnv with
      | error e => rw [hsave] at hok; exact Except.noConfusion hok
      | ok w => rw [hsave] at hok; cases hok; rfl

/-- Witness for C8 at the concrete command " CLS " (case-insensitive
classification of a padded command). -/
theorem action_tagging_witness :
    (run_command " CLS " ⟨"a", ["a"]⟩ 5 envPlain).map
      (fun r => (r.response.action, r.response.exit_code, r.response.stdout,
                 r.response.stderr)) =
      .ok (some "clear", 0, "", "") :=
  (action_tagging " CLS " ⟨"a", ["a"]⟩ 5 envPlain).1 (.inr (by decide))

/-- C9: a present non-empty encoded payload is base64-decoded and
interpreted as UTF-8 text with undecodable characters ignored, any
decoding failure yields the empty command; otherwise the raw string (or
the empty string when absent) is returned. -/
theorem decode_command_contract :
    (∀ e cmd, e ≠ "" →
      (∀ bs, b64decode e = some bs →
        decode_command (some e) cmd = utf8DecodeIgnore bs) ∧
      (b64decode e = none → decode_command (some e) cmd = "")) ∧
    (∀ cmd, decode_command none cmd = cmd.getD "") ∧
    (∀ cmd, decode_command (some "") cmd = cmd.getD "") := by
  refine ⟨?_, fun cmd => rfl, fun cmd => rfl⟩
  intro e cmd he
  constructor
  · intro bs hbs
    simp [decode_command, he, hbs]
  · intro hb
    simp [decode_command, he, hb]

/-- Witness for C9: a valid payload decodes to its text, an invalid
base64 payload ("abc", incorrect padding) decodes to the empty command. -/
theorem decode_command_contract_witness :
    decode_command (some "aGVsbG8=") none = "hello" ∧
    decode_command (some "abc") none = "" := by
  constructor
  · have h := (decode_command_contract.1 "aGVsbG8=" none (by decide)).1
      [104, 101, 108, 108, 111] (by decide)
    rw [h]
    rfl
  · exact (decode_command_contract.1 "abc" none (by decide)).2 (by decide)

/-- C10 (amended): whenever the history flag is set and `load_history`
returns a record (every file state except non-UTF-8 bytes), `main` emits
the history payload, runs no command, writes nothing, and returns 0 —
regardless of the run flag. -/
theorem history_flag_takes_precedence (args : Args) (env : Env)
    (hrec : HistoryRecord) (hh : args.history = true)
    (hload : load_history env.fileState = .ok hrec) :
    ShellRunner.main args env =
      .ok { payload := .history hrec.history hrec.last_command
                         (detect_shell env.shellEnv)
            exitCode := 0
            launched := false
            executed := none
            written := none } := by
  unfold ShellRunner.main
  rw [hload, hh]
  simp

/-- Witness for C10 at concrete arguments with both flags set. -/
theorem history_flag_takes_precedence_witness :
    ShellRunner.main ⟨true, none, some "x", true, 100⟩ envPlain =
      .ok ⟨.history [] "" "/bin/sh", 0, false, none, none⟩ :=
  history_flag_takes_precedence ⟨true, none, some "x", true, 100⟩ envPlain
    DEFAULT_HISTORY rfl rfl

/-- C3 (amended): `load_history` raises only on a non-UTF-8 history file
(an uncaught UnicodeDecodeError); absent, unreadable and malformed-JSON
files and non-dict top-level values all yield the default empty record;
for a dict whose history field is not a list only the history field
degrades to the empty list (last_command is still taken from the file,
as the counterexample shows). -/
theorem load_history_amended_behaviour (fs : FileState) :
    (∀ e, load_history fs = .error e → fs = .badUtf8 ∧ e = .unicodeDecodeError) ∧
    (fs = .absent ∨ fs = .openError ∨ fs = .parseError →
      load_history fs = .ok DEFAULT_HISTORY) ∧
    (∀ j, fs = .parsed j → isObjJ j = false → load_history fs = .ok DEFAULT_HISTORY) ∧
    (∀ kvs hv, fs = .parsed (.obj kvs) → jsonGet kvs "history" = some hv →
      isArrJ hv = false →
      (load_history fs).map (fun r => r.history) = .ok []) := by
  refine ⟨?_, ?_, ?_, ?_⟩
  · intro e he
    cases fs with
    | badUtf8 =>
      refine ⟨rfl, ?_⟩
      simpa [load_history] using he.symm
    | absent => exact absurd he (by simp [load_history])
    | openError => exact absurd he (by simp [load_history])
    | parseError => exact absurd he (by simp [load_history])
    | parsed j =>
      cases j <;> simp [load_history] at he
  · rintro (h | h | h) <;> rw [h] <;> rfl
  · intro j hj hobj
    subst hj
    cases j <;> simp_all [load_history, isObjJ]
  · intro kvs hv hfs hget harr
    subst hfs
    simp only [load_history, hget, Option.getD_some]
    cases hv <;> simp_all [isArrJ, Except.map]

/-- Witness for C3's amended statement at a concrete dict record with a
non-list history field. -/
theorem load_history_amended_behaviour_witness :
    (load_history (.parsed (.obj [("last_command", .str "x"), ("history", .int 1)]))).map
      (fun r => r.history) = .ok [] :=
  (load_history_amended_behaviour _).2.2.2
    [("last_command", .str "x"), ("history", .int 1)] (.int 1) rfl rfl rfl

/-- C4 (amended): the decoded command is trimmed exactly once, in `main`,
before delegation; the executing branch of `run_command` passes to the
shell and stores in history exactly the string it received — original
case preserved, with trimming and lowercasing used only to classify. -/
theorem executed_text_matches_stored_text :
    (∀ (args : Args) (env : Env) (r : MainResult), args.history = false →
      ShellRunner.main args env = .ok r → r.launched = true →
      r.executed = some (pyStrip (decode_command args.encoded args.command))) ∧
    (∀ (cmd : String) (hist : HistoryRecord) (lim : Int) (env : Env) (r : RunResult),
      run_command cmd hist lim env = .ok r → r.launched = true →
      r.executed = some cmd ∧ r.history.last_command = cmd) := by
  have hrun : ∀ (cmd : String) (hist : HistoryRecord) (lim : Int) (env : Env)
      (r : RunResult), run_command cmd hist lim env = .ok r → r.launched = true →
      r.executed = some cmd ∧ r.history.last_command = cmd := by
    intro cmd hist lim env r hok hl
    simp only [run_command] at hok
    by_cases h1 : pyLower (pyStrip cmd) = "" ∨ pyLower (pyStrip cmd) = "clear" ∨
        pyLower (pyStrip cmd) = "cls"
    · rw [if_pos h1] at hok
      cases hok
      simp at hl
    · rw [if_neg h1] at hok
      by_cases h2 : pyLower (pyStrip cmd) = "exit" ∨ pyLower (pyStrip cmd) = "quit"
      · rw [if_pos h2] at hok
        cases hok
        simp at hl
      · rw [if_neg h2] at hok
        cases hsave : save_history (update_history hist cmd lim) env.saveEnv with
        | error e => rw [hsave] at hok; exact Except.noConfusion hok
        | ok w =>
          rw [hsave] at hok
          cases hok
          exact ⟨rfl, rfl⟩
  refine ⟨?_, hrun⟩
  intro args env r hh hmain hl
  simp only [ShellRunner.main] at hmain
  cases hload : load_history env.fileState with
  | error e => rw [hload] at hmain; exact Except.noConfusion hmain
  | ok history =>
    rw [hload, hh] at hmain
    simp only [Bool.false_eq_true, if_false] at hmain
    by_cases hr : args.run = true
    · rw [hr] at hmain
      simp only [not_true, if_false, if_neg] at hmain
      cases hrc : run_command (pyStrip (decode_command args.encoded args.command))
          history (max 1 args.max_history) env with
      | error e =>
        rw [hrc] at hmain
        exact Except.noConfusion hmain
      | ok result =>
        rw [hrc] at hmain
        cases hmain
        exact (hrun _ _ _ _ _ hrc hl).1
    · simp only [Bool.not_eq_true] at hr
      rw [hr] at hmain
      simp only [Bool.false_eq_true, not_false_iff, if_true] at hmain
      cases hmain
      simp at hl

/-- Witness for C4's amended statement at the concrete command
"echo hi" run on an empty record. -/
theorem executed_text_matches_stored_text_witness :
    c4SampleResult.executed = some "echo hi" ∧
    c4SampleResult.history.last_command = "echo hi" :=
  executed_text_matches_stored_text.2 "echo hi" ⟨"", []⟩ 100 envPlain
    c4SampleResult rfl rfl
